import Mathlib

/-!
Shallow embedding of the SqlUtils SQL-generation engine
(`src/sql_builder/query_builder.py`, `conditions.py`, `adapt_sql.py`,
`src/sqlbbw/corrector.py`) and proofs about its specified behaviour.

Python dicts are modelled as insertion-ordered association lists, Python
exceptions as `Except PyErr`, and `re` operations as explicit character-list
scanners (fuel-driven where the recursion is not structural, with fuel at
least the input length so the fuel case is unreachable).
-/

namespace SqlUtils

/-- Python scalar values as they appear in parameter bindings. -/
inductive Value where
  | intV : Int → Value
  | strV : String → Value
  | boolV : Bool → Value
  | noneV : Value
deriving DecidableEq

/-- Python exceptions surfaced by the builders (`ValueError(msg)`, `IndexError`). -/
inductive PyErr where
  | valueError : String → PyErr
  | indexError : PyErr
deriving DecidableEq

/-- ASCII reading of Python regex `\w`: letters, digits, underscore. -/
def isWordChar (c : Char) : Bool := c.isAlphanum || c = '_'

/-- Python `re.match(r'^[\w]+$', s)` as a Boolean: one or more word characters,
where `$` also accepts the position before a single trailing newline
(Python `re` semantics).  This inline check is the Identifier Validator used
throughout `query_builder.py` and `conditions.py`. -/
def pyIdentMatch (s : String) : Bool :=
  let core := if s.data.getLast? = some '\n' then s.data.dropLast else s.data
  !core.isEmpty && core.all isWordChar

/-- Decimal digit character. -/
def digitChr : Nat → Char
  | 0 => '0' | 1 => '1' | 2 => '2' | 3 => '3' | 4 => '4'
  | 5 => '5' | 6 => '6' | 7 => '7' | 8 => '8' | _ => '9'

/-- Fuel-driven decimal rendering of a natural number; with fuel `n + 1` this
is Python `str(n)` (f-string interpolation of a non-negative int). -/
def natCharsAux : Nat → Nat → List Char
  | 0, _ => []
  | f + 1, n =>
    if n < 10 then [digitChr n] else natCharsAux f (n / 10) ++ [digitChr (n % 10)]

/-- Python `str(n)` for a natural number. -/
def pyNatStr (n : Nat) : String := ⟨natCharsAux (n + 1) n⟩

/-- Python `str(i)` for an int. -/
def pyIntStr (i : Int) : String :=
  if i < 0 then "-" ++ pyNatStr i.natAbs else pyNatStr i.toNat

/-- Python `s.lower()` on the ASCII dialect names used here. -/
def pyLower (s : String) : String := ⟨s.data.map Char.toLower⟩

/-- Python `s.upper()` on ASCII input. -/
def pyUpper (s : String) : String := ⟨s.data.map Char.toUpper⟩

/-- Python `d[k] = v` on an insertion-ordered association list: replace in
place when the key exists, append otherwise. -/
def dictSet (d : List (String × Value)) (k : String) (v : Value) : List (String × Value) :=
  if d.any (fun kv => kv.1 = k) then d.map (fun kv => if kv.1 = k then (k, v) else kv)
  else d ++ [(k, v)]

/-- Python `d.update(p)`. -/
def dictUpdate (d p : List (String × Value)) : List (String × Value) :=
  p.foldl (fun acc kv => dictSet acc kv.1 kv.2) d

/-- Python `sep.join(parts)`. -/
def joinSep (sep : String) : List String → String
  | [] => ""
  | [x] => x
  | x :: y :: rest => x ++ sep ++ joinSep sep (y :: rest)

/-- Python `repr` of a list of strings as interpolated into error f-strings
(quote escaping of exotic names is not modelled; names here are plain). -/
def pyReprStrList (l : List String) : String :=
  "[" ++ joinSep ", " (l.map (fun s => "\x27" ++ s ++ "\x27")) ++ "]"

/-- Python `repr` of a list of string pairs (for the `order_by` error). -/
def pyReprPairList (l : List (String × String)) : String :=
  "[" ++ joinSep ", "
    (l.map (fun p => "(\x27" ++ p.1 ++ "\x27, \x27" ++ p.2 ++ "\x27)")) ++ "]"

/-- Modelled from the spec: `sql_builder/mappings.py` is missing from the
source tree (only its importers are present).  Per §4.5 the builder emits the
canonical named-colon placeholder style for every dialect; the mssql/postgres
rewrites happen later in the Parameter Adapter. -/
def placeholders (_dialect : String) : String := ":"

/-- Modelled from the spec: `sql_builder/mappings.py` is missing from the
source tree.  Each dialect has one identifier quote character (§3); §8 shows
`"` for postgresql, mysql uses its customary backtick, and the code falls back
to `"` via `.get(dialect, '"')`. -/
def quote_chars (dialect : String) : String :=
  if dialect = "mysql" then "`" else "\""

/-- Modelled from the spec: `sql_builder/mappings.py` is missing from the
source tree.  §3 fixes the closed operator set. -/
def valid_operators : List String :=
  ["=", "!=", "<>", "<", ">", "<=", ">=", "LIKE", "ILIKE", "IN", "NOT IN",
   "BETWEEN", "IS NULL", "IS NOT NULL"]

/-- A condition object (`conditions.py`).  `uid` is the value drawn from the
process-wide `itertools.count(1)` counter (`_ids`), so distinct condition
objects always carry distinct `uid`s. -/
structure Condition where
  field : String
  op : String
  values : List Value
  uid : Nat
  aggregate : Option String
deriving DecidableEq

/-- The date/datetime literal pattern of `SQLBuilder._get_dt_wrapper`:
`^\d{4}-\d{2}-\d{2}(?: \d{2}:\d{2}:\d{2})?$` on the character list. -/
def matchDateCore : List Char → Bool
  | [y1, y2, y3, y4, '-', m1, m2, '-', d1, d2] =>
    [y1, y2, y3, y4, m1, m2, d1, d2].all Char.isDigit
  | [y1, y2, y3, y4, '-', m1, m2, '-', d1, d2, ' ', h1, h2, ':', n1, n2, ':', s1, s2] =>
    [y1, y2, y3, y4, m1, m2, d1, d2, h1, h2, n1, n2, s1, s2].all Char.isDigit
  | _ => false

/-- `re.match` of the date pattern, with the `$` trailing-newline rule. -/
def isDateTimeLit (s : String) : Bool :=
  let core := if s.data.getLast? = some '\n' then s.data.dropLast else s.data
  matchDateCore core

/-- The datetime wrapper closure built by `SQLBuilder._get_dt_wrapper`. -/
def wrapDt (dialect : String) (phVal : String) (op : String) (v : Value) : String :=
  match v with
  | .strV s =>
    if (op = "=" || op = "!=" || op = "<" || op = ">" || op = "<=" || op = ">=")
        && isDateTimeLit s then
      if dialect = "oracle" then "TO_DATE(" ++ phVal ++ ", \x27YYYY-MM-DD HH24:MI:SS\x27)"
      else if dialect = "mssql" then "CAST(" ++ phVal ++ " AS DATETIME2)"
      else phVal
    else phVal
  | _ => phVal

/-- The quoted (and optionally aggregate-wrapped) column reference of
`Condition.to_sql`. -/
def condCol (c : Condition) (qc : String) : String :=
  match c.aggregate with
  | some a => pyUpper a ++ "(" ++ qc ++ c.field ++ qc ++ ")"
  | none => qc ++ c.field ++ qc

/-- `Condition.to_sql(dialect, ph, quote_char, dt_wrapper)`: emit the SQL
fragment and the parameter mapping.  `self.values[k]` subscripts can raise
`IndexError` in Python; that is the `.error .indexError` outcome. -/
def Condition.toSql (c : Condition) (_dialect ph qc : String)
    (wrap : String → String → Value → String) :
    Except PyErr (String × List (String × Value)) :=
  let colStr := condCol c qc
  let base := c.field ++ "_" ++ pyNatStr c.uid
  if c.op = "IS NULL" ∨ c.op = "IS NOT NULL" then
    .ok (colStr ++ " " ++ c.op, [])
  else if c.op = "BETWEEN" then
    match c.values with
    | v0 :: v1 :: _ =>
      .ok (colStr ++ " BETWEEN " ++ ph ++ base ++ "_min AND " ++ ph ++ base ++ "_max",
           dictSet (dictSet [] (base ++ "_min") v0) (base ++ "_max") v1)
    | _ => .error .indexError
  else if c.op = "IN" ∨ c.op = "NOT IN" then
    let keys := (List.range c.values.length).map (fun i => ph ++ base ++ "_" ++ pyNatStr i)
    let ps := c.values.enum.map (fun iv => (base ++ "_" ++ pyNatStr iv.1, iv.2))
    .ok (colStr ++ " " ++ c.op ++ " (" ++ joinSep "," keys ++ ")",
         dictUpdate [] ps)
  else if c.op = "LIKE" ∨ c.op = "ILIKE" then
    match c.values with
    | v0 :: _ => .ok (colStr ++ " " ++ c.op ++ " " ++ ph ++ base, dictSet [] base v0)
    | _ => .error .indexError
  else if c.op = "=" ∨ c.op = "!=" ∨ c.op = "<>" ∨ c.op = "<" ∨ c.op = ">"
      ∨ c.op = "<=" ∨ c.op = ">=" then
    match c.values with
    | v0 :: _ =>
      .ok (colStr ++ " " ++ c.op ++ " " ++ wrap (ph ++ base) c.op v0, dictSet [] base v0)
    | _ => .error .indexError
  else .error (.valueError ("Unsupported operator: " ++ c.op))

/-- Python `int(tok)` on a digit run. -/
def valDigits (cs : List Char) : Nat := cs.foldl (fun a c => 10 * a + (c.toNat - 48)) 0

/-- Character class of `^[\d\sANDOR()]+$` from `build_where`. -/
def exprCharOk (c : Char) : Bool :=
  c.isDigit || c = ' ' || c = '\t' || c = '\n' || c = '\r' || c = '\x0b' || c = '\x0c' ||
  c = 'A' || c = 'N' || c = 'D' || c = 'O' || c = 'R' || c = '(' || c = ')'

/-- Scanner for `re.sub(r'\b\d+\b', repl, expression)` in
`SQLBuilder.build_where`: each maximal digit run delimited by word boundaries
is replaced by the 1-indexed fragment; an out-of-range index raises
`ValueError`.  The `Bool` argument records whether the previous character was
a word character (the left `\b`); fuel-driven. -/
def subIdxAux (frags : List String) : Nat → Bool → List Char → Except PyErr (List Char)
  | 0, _, rest => .ok rest
  | _ + 1, _, [] => .ok []
  | f + 1, prevWord, c :: rest =>
    if c.isDigit && !prevWord then
      let run := c :: rest.takeWhile Char.isDigit
      let rest2 := rest.dropWhile Char.isDigit
      if (rest2.head?.map isWordChar).getD false then
        (subIdxAux frags f true rest2).map (fun tail => run ++ tail)
      else
        let n := valDigits run
        if h : 0 < n ∧ n ≤ frags.length then
          (subIdxAux frags f true rest2).map
            (fun tail => (frags.get ⟨n - 1, by omega⟩).data ++ tail)
        else .error (.valueError ("Invalid index in expression: " ++ ⟨run⟩))
    else (subIdxAux frags f (isWordChar c) rest).map (fun tail => c :: tail)

/-- One iteration of the condition loop in `build_where`: compile the
condition and accumulate its fragment and parameters. -/
def bwStep (dialect ph qc : String) (acc : List String × List (String × Value))
    (c : Condition) : Except PyErr (List String × List (String × Value)) :=
  match c.toSql dialect ph qc (wrapDt dialect) with
  | .error e => .error e
  | .ok r => .ok (acc.1 ++ [r.1], dictUpdate acc.2 r.2)

/-- `SQLBuilder.build_where(conditions, expression)` over pre-built condition
objects (`Condition.from_input` is the identity on them). -/
def buildWhere (dialect ph qc : String) (conds : List Condition) (expr : Option String) :
    Except PyErr (String × List (String × Value)) :=
  if conds.isEmpty then .ok ("", [])
  else
    match conds.foldlM (bwStep dialect ph qc)
        (([] : List String), ([] : List (String × Value))) with
    | .error e => .error e
    | .ok fp =>
      match expr with
      | none => .ok (joinSep " AND " fp.1, fp.2)
      | some e =>
        match subIdxAux fp.1 e.data.length false e.data with
        | .error err => .error err
        | .ok out =>
          if e.data.isEmpty || !(e.data.all exprCharOk) then
            .error (.valueError ("Invalid characters in expression: " ++ e))
          else .ok (⟨out⟩, fp.2)

/-- The builder object; `__init__` lowercases the dialect once. -/
structure SQLBuilder where
  dialect : String

def mkSQLBuilder (dialect : String) : SQLBuilder := ⟨pyLower dialect⟩

/-- The `Union[Dict, List]` parameter shapes returned by the builders. -/
inductive ParamsOut where
  | named : List (String × Value) → ParamsOut
  | positional : List Value → ParamsOut
deriving DecidableEq

/-- The `Union[str, List[str]]` columns argument of `select`. -/
inductive ColumnsArg where
  | strC : String → ColumnsArg
  | listC : List String → ColumnsArg

/-- Python truthiness of an optional-list argument (`if conditions:`). -/
def condTruthy {α : Type} (o : Option (List α)) : Bool :=
  match o with
  | some l => !l.isEmpty
  | none => false

/-- Python truthiness of the `offset` int (`if offset:` in the mysql branch). -/
def offTruthy (o : Option Int) : Bool :=
  match o with
  | some i => i != 0
  | none => false

/-- The pagination tail of `SQLBuilder.select` (lines 83-100): guarded by
`offset is not None or limit is not None`, then dispatched on the stored
dialect string.  The oracle and mssql branches of the source are two separate
`elif`s with identical bodies. -/
def pagClause (dialect : String) (limit offs : Option Int) : String :=
  if limit = none && offs = none then ""
  else if dialect = "postgres" || dialect = "sqlite" then
    " OFFSET " ++ pyIntStr (offs.getD 0)
      ++ (match limit with | some m => " LIMIT " ++ pyIntStr m | none => "")
  else if dialect = "oracle" || dialect = "mssql" then
    " OFFSET " ++ pyIntStr (offs.getD 0) ++ " ROWS"
      ++ (match limit with
          | some m => " FETCH NEXT " ++ pyIntStr m ++ " ROWS ONLY"
          | none => "")
  else if dialect = "mysql" then
    (match limit with | some m => " LIMIT " ++ pyIntStr m | none => "")
      ++ (if offTruthy offs then " OFFSET " ++ pyIntStr (offs.getD 0) else "")
  else ""

/-- The WHERE portion of `select`: clause text (with leading ` WHERE `) and
the parameter entries it contributes. -/
def selectWherePart (dialect ph qc : String) (conditions : Option (List Condition))
    (expression : Option String) : Except PyErr (String × List (String × Value)) :=
  if condTruthy conditions then
    match buildWhere dialect ph qc (conditions.getD []) expression with
    | .error e => .error e
    | .ok r =>
      if r.1 = "" then .ok ("", []) else .ok (" WHERE " ++ r.1, dictUpdate [] r.2)
  else .ok ("", [])

/-- The GROUP BY / HAVING portion of `select` (HAVING is only reachable inside
a truthy `group_by`, as in the source). -/
def selectGroupPart (dialect ph qc : String) (group_by : Option (List String))
    (having : Option (List Condition)) (having_expr : Option String) :
    Except PyErr (String × List (String × Value)) :=
  if condTruthy group_by then
    let gl := group_by.getD []
    if !(gl.all pyIdentMatch) then
      .error (.valueError ("Invalid group_by columns: " ++ pyReprStrList gl))
    else
      let ghead := " GROUP BY " ++ joinSep ", " (gl.map (fun g => qc ++ g ++ qc))
      if condTruthy having then
        match buildWhere dialect ph qc (having.getD []) having_expr with
        | .error e => .error e
        | .ok r =>
          if r.1 = "" then .ok (ghead, []) else .ok (ghead ++ " HAVING " ++ r.1, r.2)
      else .ok (ghead, [])
  else .ok ("", [])

/-- The ORDER BY portion of `select`. -/
def selectOrderPart (qc : String) (order_by : Option (List (String × String))) :
    Except PyErr String :=
  if condTruthy order_by then
    let ol := order_by.getD []
    if !(ol.all (fun fd => pyIdentMatch fd.1 && (pyUpper fd.2 = "ASC" || pyUpper fd.2 = "DESC"))) then
      .error (.valueError ("Invalid order_by: " ++ pyReprPairList ol))
    else
      .ok (" ORDER BY " ++ joinSep ", "
            (ol.map (fun fd => qc ++ fd.1 ++ qc ++ " " ++ pyUpper fd.2)))
  else .ok ""

/-- `SQLBuilder.select`: the sequential `sql +=` appends of the source are the
concatenation of the independently computed clause parts, and `params` is the
sequence of `params.update` calls (WHERE then HAVING). -/
def SQLBuilder.select (b : SQLBuilder) (table : String) (columns : ColumnsArg)
    (conditions : Option (List Condition)) (expression : Option String)
    (order_by : Option (List (String × String))) (limit offs : Option Int)
    (group_by : Option (List String)) (having : Option (List Condition))
    (having_expr : Option String) :
    Except PyErr (String × List (String × Value)) :=
  let qc := quote_chars b.dialect
  let ph := placeholders b.dialect
  if !pyIdentMatch table then .error (.valueError ("Invalid table name: " ++ table))
  else
    let cols := match columns with
      | .listC l => joinSep ", " (l.map (fun c => qc ++ c ++ qc))
      | .strC s => s
    let base := "SELECT " ++ cols ++ " FROM " ++ qc ++ table ++ qc
    match selectWherePart b.dialect ph qc conditions expression with
    | .error e => .error e
    | .ok wp =>
      match selectGroupPart b.dialect ph qc group_by having having_expr with
      | .error e => .error e
      | .ok gp =>
        match selectOrderPart qc order_by with
        | .error e => .error e
        | .ok ob =>
          .ok (base ++ wp.1 ++ gp.1 ++ ob ++ pagClause b.dialect limit offs,
               dictUpdate wp.2 gp.2)

/-- One iteration of the `data.items()` loop in `SQLBuilder.update`. -/
def updateStep (qc ph : String) (acc : List String × List (String × Value))
    (kv : String × Value) : Except PyErr (List String × List (String × Value)) :=
  if !pyIdentMatch kv.1 then .error (.valueError ("Invalid column name: " ++ kv.1))
  else .ok (acc.1 ++ [qc ++ kv.1 ++ qc ++ " = " ++ ph ++ "set_" ++ kv.1],
            dictSet acc.2 ("set_" ++ kv.1) kv.2)

/-- `SQLBuilder.update(table, data, conditions, expression, allow_full)`. -/
def SQLBuilder.update (b : SQLBuilder) (table : String) (data : List (String × Value))
    (conditions : Option (List Condition)) (expression : Option String)
    (allow_full : Bool) : Except PyErr (String × ParamsOut) :=
  let qc := quote_chars b.dialect
  let ph := placeholders b.dialect
  if !pyIdentMatch table then .error (.valueError ("Invalid table name: " ++ table))
  else
    match data.foldlM (updateStep qc ph) (([] : List String), ([] : List (String × Value))) with
    | .error e => .error e
    | .ok sp =>
      let sql0 := "UPDATE " ++ qc ++ table ++ qc ++ " SET " ++ joinSep ", " sp.1
      let r : Except PyErr (String × List (String × Value)) :=
        if condTruthy conditions then
          match buildWhere b.dialect ph qc (conditions.getD []) expression with
          | .error e => .error e
          | .ok w =>
            if w.1 = "" then .ok (sql0, sp.2)
            else .ok (sql0 ++ " WHERE " ++ w.1, dictUpdate sp.2 w.2)
        else if !allow_full then
          .error (.valueError "UPDATE without WHERE refused; use allow_full=True if intended")
        else .ok (sql0, sp.2)
      match r with
      | .error e => .error e
      | .ok rr =>
        if b.dialect = "mysql" || b.dialect = "sqlite" then
          .ok (rr.1, .positional (rr.2.map Prod.snd))
        else .ok (rr.1, .named rr.2)

/-- `SQLBuilder.delete(table, conditions, expression, allow_full)`. -/
def SQLBuilder.delete (b : SQLBuilder) (table : String)
    (conditions : Option (List Condition)) (expression : Option String)
    (allow_full : Bool) : Except PyErr (String × ParamsOut) :=
  let qc := quote_chars b.dialect
  let ph := placeholders b.dialect
  if !pyIdentMatch table then .error (.valueError ("Invalid table name: " ++ table))
  else
    let sql0 := "DELETE FROM " ++ qc ++ table ++ qc
    let r : Except PyErr (String × List (String × Value)) :=
      if condTruthy conditions then
        match buildWhere b.dialect ph qc (conditions.getD []) expression with
        | .error e => .error e
        | .ok w =>
          if w.1 = "" then .ok (sql0, [])
          else .ok (sql0 ++ " WHERE " ++ w.1, dictUpdate [] w.2)
      else if !allow_full then
        .error (.valueError "DELETE without WHERE refused; use allow_full=True if intended")
      else .ok (sql0, [])
    match r with
    | .error e => .error e
    | .ok rr =>
      if b.dialect = "mysql" || b.dialect = "sqlite" then
        .ok (rr.1, .positional (rr.2.map Prod.snd))
      else .ok (rr.1, .named rr.2)

/-- `SQLBuilder.upsert(table, data, pk)` (the `logger.warning` side effect is
not modelled). -/
def SQLBuilder.upsert (b : SQLBuilder) (table : String) (data : List (String × Value))
    (pk : List String) : Except PyErr (String × ParamsOut) :=
  let qc := quote_chars b.dialect
  let ph := placeholders b.dialect
  if !pyIdentMatch table then .error (.valueError ("Invalid table name: " ++ table))
  else
    let cols := data.map Prod.fst
    if !((cols ++ pk).all pyIdentMatch) then
      .error (.valueError ("Invalid column names: " ++ pyReprStrList (cols ++ pk)))
    else
      let quoted := fun (c : String) => qc ++ c ++ qc
      let colList := joinSep ", " (cols.map quoted)
      let vals := joinSep ", " (cols.map (fun c => ph ++ c))
      let non_pk := cols.filter (fun c => !pk.contains c)
      let params := data
      let sqlE : Except PyErr String :=
        if b.dialect = "postgres" then
          .ok ("INSERT INTO " ++ quoted table ++ " (" ++ colList ++ ") VALUES (" ++ vals
            ++ ") ON CONFLICT (" ++ joinSep ", " (pk.map quoted)
            ++ ") DO UPDATE SET "
            ++ joinSep ", " (non_pk.map (fun c => quoted c ++ "=EXCLUDED." ++ quoted c)))
        else if b.dialect = "sqlite" then
          .ok ("INSERT INTO " ++ quoted table ++ " (" ++ colList ++ ") VALUES (" ++ vals
            ++ ") ON CONFLICT (" ++ joinSep ", " (pk.map quoted)
            ++ ") DO UPDATE SET "
            ++ joinSep ", " (non_pk.map (fun c => quoted c ++ "=excluded." ++ quoted c)))
        else if b.dialect = "mysql" then
          .ok ("INSERT INTO " ++ quoted table ++ " (" ++ colList ++ ") VALUES (" ++ vals
            ++ ") ON DUPLICATE KEY UPDATE "
            ++ joinSep ", " (non_pk.map (fun c => quoted c ++ "=VALUES(" ++ quoted c ++ ")")))
        else if b.dialect = "mssql" || b.dialect = "oracle" then
          .ok ("MERGE INTO " ++ quoted table ++ " T USING (VALUES (" ++ vals ++ ")) S ("
            ++ colList ++ ") ON ("
            ++ joinSep " AND " (pk.map (fun k => "T." ++ quoted k ++ "=S." ++ quoted k))
            ++ ") WHEN MATCHED THEN UPDATE SET "
            ++ joinSep ", " (non_pk.map (fun c => "T." ++ quoted c ++ "=S." ++ quoted c))
            ++ " WHEN NOT MATCHED THEN INSERT (" ++ colList ++ ") VALUES ("
            ++ joinSep ", " (cols.map (fun c => "S." ++ quoted c)) ++ ")")
        else .error (.valueError ("Upsert not supported for dialect: " ++ b.dialect))
      match sqlE with
      | .error e => .error e
      | .ok sql =>
        if b.dialect = "mysql" || b.dialect = "sqlite" then
          .ok (sql, .positional (params.map Prod.snd))
        else .ok (sql, .named params)

/-- Scanner for `re.sub(r':(\w+)', repl, sql)` (`adapt_sql.py`): each
`:`-prefixed maximal word run is replaced by `repl run`; fuel-driven. -/
def phRewriteAux (repl : List Char → List Char) : Nat → List Char → List Char
  | 0, rest => rest
  | _ + 1, [] => []
  | f + 1, c :: rest =>
    if c = ':' && (rest.head?.map isWordChar).getD false then
      repl (rest.takeWhile isWordChar) ++ phRewriteAux repl f (rest.dropWhile isWordChar)
    else c :: phRewriteAux repl f rest

def phRewrite (repl : List Char → List Char) (s : String) : String :=
  ⟨phRewriteAux repl s.data.length s.data⟩

/-- The named-placeholder occurrences of an SQL text, in textual order. -/
def namedOccAux : Nat → List Char → List String
  | 0, _ => []
  | _ + 1, [] => []
  | f + 1, c :: rest =>
    if c = ':' && (rest.head?.map isWordChar).getD false then
      (⟨rest.takeWhile isWordChar⟩ : String) :: namedOccAux f (rest.dropWhile isWordChar)
    else namedOccAux f rest

def firstSeenAux : List String → List String → List String
  | _, [] => []
  | seen, x :: xs =>
    if seen.contains x then firstSeenAux seen xs else x :: firstSeenAux (x :: seen) xs

/-- Named placeholders of the SQL text in first-seen order. -/
def namedPlaceholders (s : String) : List String :=
  firstSeenAux [] (namedOccAux s.data.length s.data)

/-- Case-insensitive literal prefix match (the pattern is given lowercase);
returns the rest of the text on success. -/
def matchCI : List Char → List Char → Option (List Char)
  | [], rest => some rest
  | _ :: _, [] => none
  | p :: ps, c :: rest => if c.toLower = p then matchCI ps rest else none

/-- Attempt of `OFFSET (\d+) ROWS(?: FETCH NEXT (\d+) ROWS ONLY)?` (flags
`re.I`) at the head of the text; returns offset digits, optional limit digits,
and the rest. -/
def tryOffsetPat (cs : List Char) : Option (List Char × Option (List Char) × List Char) :=
  match matchCI "offset ".data cs with
  | none => none
  | some r1 =>
    let offD := r1.takeWhile Char.isDigit
    if offD.isEmpty then none
    else
      let r2 := r1.dropWhile Char.isDigit
      match matchCI " rows".data r2 with
      | none => none
      | some r3 =>
        match matchCI " fetch next ".data r3 with
        | none => some (offD, none, r3)
        | some r4 =>
          let limD := r4.takeWhile Char.isDigit
          if limD.isEmpty then some (offD, none, r3)
          else
            match matchCI " rows only".data (r4.dropWhile Char.isDigit) with
            | none => some (offD, none, r3)
            | some r5 => some (offD, some limD, r5)

/-- Replacement text of the pagination patch; the Python `_patch` (postgres)
and `_patch_mysql` closures produce identical output. -/
def pagRepl (offD : List Char) (limD : Option (List Char)) : List Char :=
  match limD with
  | some l => " LIMIT ".data ++ l ++ " OFFSET ".data ++ offD
  | none => " OFFSET ".data ++ offD

def pagPatchAux : Nat → List Char → List Char
  | 0, rest => rest
  | _ + 1, [] => []
  | f + 1, c :: rest =>
    match tryOffsetPat (c :: rest) with
    | some (offD, limD, rest2) => pagRepl offD limD ++ pagPatchAux f rest2
    | none => c :: pagPatchAux f rest

def pagPatch (s : List Char) : List Char := pagPatchAux s.length s

/-- `adapt_sql(sql, params, dialect)` (`adapt_sql.py`). -/
def adapt_sql (sql : String) (params : List (String × Value)) (dialect : String) :
    Except PyErr (String × ParamsOut) :=
  let d := pyLower dialect
  if d = "oracle" then .ok (sql, .named params)
  else if d = "mssql" then .ok (phRewrite (fun run => '@' :: run) sql, .named params)
  else if d = "postgres" || d = "postgresql" then
    .ok (⟨pagPatch (phRewrite (fun run => '%' :: '(' :: (run ++ [')', 's'])) sql).data⟩,
         .named params)
  else if d = "mysql" || d = "sqlite" then
    .ok (⟨pagPatch (phRewrite (fun _ => ['?']) sql).data⟩,
         .positional (params.map Prod.snd))
  else .error (.valueError ("Unknown dialect: " ++ d))

/-- Python `str(value)` on the scalar model. -/
def pyStr (v : Value) : Value :=
  match v with
  | .strV s => .strV s
  | .intV i => .strV (pyIntStr i)
  | .boolV b => .strV (if b then "True" else "False")
  | .noneV => .strV "None"

/-- `type_str.split('(')[0]` from `DataCorrector`. -/
def baseType (t : String) : String := ⟨t.data.takeWhile (fun c => c ≠ '(')⟩

/-- The per-dialect coercion table `coercers[db]` of `sqlbbw/mappings.py`,
abstracted: the concrete entries are pandas Series transformations, modelled
as arbitrary fallible column functions (a thrown exception is `.error`). -/
def CoMap : Type := String → Option (List Value → String → Except Unit (List Value))

/-- The per-value body of the `fix_rows` inner loop:
`None if value is None else coercer(pd.Series([value]), type_str)[0] if coercer
else str(value)`, with the `try/except` turning any failure (including an
empty result indexed by `[0]`) into `None`. -/
def coerceCell (co : CoMap) (tstr : String) (v : Value) : Value :=
  if v = .noneV then .noneV
  else match co (baseType tstr) with
    | some f =>
      match f [v] tstr with
      | .ok (w :: _) => w
      | .ok [] => .noneV
      | .error _ => .noneV
    | none => pyStr v

/-- One row of `DataCorrector.fix_rows`: keys missing from the cached schema
are skipped (`continue`), others are coerced. -/
def fix_row (co : CoMap) (meta : List (String × String)) (row : List (String × Value)) :
    List (String × Value) :=
  row.foldl
    (fun acc kv =>
      match List.lookup kv.1 meta with
      | none => acc
      | some tstr => dictSet acc kv.1 (coerceCell co tstr kv.2))
    []

/-- `DataCorrector.fix_rows(table, rows)` with the table's cached schema. -/
def fix_rows (co : CoMap) (meta : List (String × String))
    (rows : List (List (String × Value))) : List (List (String × Value)) :=
  rows.map (fix_row co meta)

/-- `DataCorrector.fix_df(table, df)`: a DataFrame as an ordered list of named
columns; a failing column coercion degrades the column to `astype(str)`. -/
def fix_df (co : CoMap) (meta : List (String × String))
    (df : List (String × List Value)) : List (String × List Value) :=
  df.map (fun col =>
    match List.lookup col.1 meta with
    | none => col
    | some tstr =>
      match co (baseType tstr) with
      | some f =>
        (col.1, match f col.2 tstr with
                | .ok newCol => newCol
                | .error _ => col.2.map pyStr)
      | none => (col.1, col.2.map pyStr))

/-- Time units of `pd.to_datetime(s, unit=...)`. -/
inductive EpochUnit where
  | us | ms | s
deriving DecidableEq

/-- The epoch-unit selection of `cast_df` (`corrector.py` lines 102-108): the
`> 1e12` test runs before the `> 1e15` test.  The column maximum is an exact
integer here (`pd.to_numeric` on all-digit strings yields int64). -/
def chooseEpochUnit (maxVal : Int) : EpochUnit :=
  if maxVal > 10 ^ 12 then .ms
  else if maxVal > 10 ^ 15 then .us
  else .s

/-- Modelled from the spec: §4.6 unit choice — ">1e15→microseconds,
>1e12→milliseconds, else seconds". -/
def specEpochUnit (maxVal : Int) : EpochUnit :=
  if maxVal > 10 ^ 15 then .us
  else if maxVal > 10 ^ 12 then .ms
  else .s

/-- The three `epochtime` regexes of `sqlbbw/mappings.py`:
`^\d{10}(\.\d+)?$`, `^\d{13}$`, `^\d{16}$` (values are `.str.strip()`ped
upstream, so no trailing newline reaches them). -/
def matchesEpochPat (s : String) : Bool :=
  let cs := s.data
  ((cs.take 10).length = 10 && (cs.take 10).all Char.isDigit &&
    (match cs.drop 10 with
     | [] => true
     | '.' :: ds => !ds.isEmpty && ds.all Char.isDigit
     | _ => false))
  || (cs.length = 13 && cs.all Char.isDigit)
  || (cs.length = 16 && cs.all Char.isDigit)

/-- Shape of the optional suffix after `{field}_{instanceId}` in a generated
parameter key: empty, or an underscore followed by anything. -/
def TailShape (t : String) : Prop := t.data = [] ∨ ∃ r, t.data = '_' :: r

/-- The parameter keys `Condition.to_sql` can generate, by operator (mirrors
the branch structure of `to_sql`). -/
def keyForms (c : Condition) : List String :=
  let base := c.field ++ "_" ++ pyNatStr c.uid
  if c.op = "IS NULL" ∨ c.op = "IS NOT NULL" then []
  else if c.op = "BETWEEN" then [base ++ "_min", base ++ "_max"]
  else if c.op = "IN" ∨ c.op = "NOT IN" then
    (List.range c.values.length).map (fun i => base ++ "_" ++ pyNatStr i)
  else [base]

/-- Search for an adjacent space-then-`W` pair, the prerequisite of any
`" WHERE "` occurrence. -/
def hasPair : List Char → Bool
  | a :: b :: t => (a = ' ' && b = 'W') || hasPair (b :: t)
  | _ => false

/-- Literal prefix test on character lists. -/
def startsWithPat : List Char → List Char → Bool
  | [], _ => true
  | _ :: _, [] => false
  | p :: ps, c :: cs => p = c && startsWithPat ps cs

/-- Literal substring test on character lists. -/
def containsPat (pat : List Char) : List Char → Bool
  | [] => pat.isEmpty
  | c :: cs => startsWithPat pat (c :: cs) || containsPat pat cs

/-! ### Foundational lemmas: decimal rendering, strings, dictionaries -/

theorem digitChr_ne_underscore (d : Nat) : digitChr d ≠ '_' := by
  unfold digitChr; split <;> decide

theorem digitChr_toNat (d : Nat) (h : d < 10) : (digitChr d).toNat = 48 + d := by
  interval_cases d <;> decide

theorem valDigits_append (l : List Char) (c : Char) :
    valDigits (l ++ [c]) = 10 * valDigits l + (c.toNat - 48) := by
  unfold valDigits
  rw [List.foldl_append]
  rfl

theorem valDigits_natCharsAux : ∀ f n, n < 10 ^ f → valDigits (natCharsAux f n) = n := by
  intro f
  induction f with
  | zero => intro n h; interval_cases n; rfl
  | succ f ih =>
    intro n h
    unfold natCharsAux
    by_cases h10 : n < 10
    · rw [if_pos h10]
      show 10 * 0 + ((digitChr n).toNat - 48) = n
      rw [digitChr_toNat n h10]
      omega
    · rw [if_neg h10, valDigits_append, ih (n / 10) ?_,
          digitChr_toNat (n % 10) (Nat.mod_lt _ (by omega))]
      · omega
      · rw [Nat.div_lt_iff_lt_mul (by omega : (0:Nat) < 10)]
        calc n < 10 ^ (f + 1) := h
          _ = 10 ^ f * 10 := by ring

theorem natCharsAux_ne_underscore : ∀ f n, ∀ c ∈ natCharsAux f n, c ≠ '_' := by
  intro f
  induction f with
  | zero => intro n c h; simp [natCharsAux] at h
  | succ f ih =>
    intro n c h
    unfold natCharsAux at h
    by_cases h10 : n < 10
    · rw [if_pos h10] at h
      simp only [List.mem_singleton] at h
      subst h; exact digitChr_ne_underscore n
    · rw [if_neg h10] at h
      rcases List.mem_append.mp h with h' | h'
      · exact ih _ c h'
      · simp only [List.mem_singleton] at h'
        subst h'; exact digitChr_ne_underscore _

theorem pyNatStr_inj {m n : Nat} (h : pyNatStr m = pyNatStr n) : m = n := by
  have hd : natCharsAux (m + 1) m = natCharsAux (n + 1) n := congrArg String.data h
  have hm : m < 10 ^ (m + 1) :=
    lt_of_lt_of_le (Nat.lt_pow_self (by omega) m) (Nat.pow_le_pow_right (by omega) (by omega))
  have hn : n < 10 ^ (n + 1) :=
    lt_of_lt_of_le (Nat.lt_pow_self (by omega) n) (Nat.pow_le_pow_right (by omega) (by omega))
  have h1 := valDigits_natCharsAux (m + 1) m hm
  rw [hd, valDigits_natCharsAux (n + 1) n hn] at h1
  omega

theorem pyNatStr_ne_underscore (n : Nat) : ∀ c ∈ (pyNatStr n).data, c ≠ '_' :=
  natCharsAux_ne_underscore (n + 1) n

theorem strAppend_cancel_left {a b c : String} (h : a ++ b = a ++ c) : b = c := by
  apply String.ext
  have hd := congrArg String.data h
  rw [String.data_append, String.data_append] at hd
  exact List.append_cancel_left hd

theorem split_first_underscore :
    ∀ (a b a' b' : List Char),
      (∀ c ∈ a, c ≠ '_') → (∀ c ∈ a', c ≠ '_') →
      a ++ '_' :: b = a' ++ '_' :: b' → a = a' ∧ b = b' := by
  intro a
  induction a with
  | nil =>
    intro b a' b' _ h2 heq
    cases a' with
    | nil => simpa using heq
    | cons x xs =>
      exfalso
      simp only [List.nil_append, List.cons_append] at heq
      injection heq with hx _
      exact h2 x (by simp) hx.symm
  | cons x xs ih =>
    intro b a' b' h1 h2 heq
    cases a' with
    | nil =>
      exfalso
      simp only [List.cons_append, List.nil_append] at heq
      injection heq with hx _
      exact h1 x (by simp) hx
    | cons y ys =>
      simp only [List.cons_append] at heq
      injection heq with hxy hrest
      have hr := ih b ys b' (fun c hc => h1 c (by simp [hc])) (fun c hc => h2 c (by simp [hc])) hrest
      exact ⟨by rw [hxy, hr.1], hr.2⟩

theorem key_eq_uid_eq (fld : String) (u1 u2 : Nat) (t1 t2 : String)
    (h1 : TailShape t1) (h2 : TailShape t2)
    (he : fld ++ "_" ++ pyNatStr u1 ++ t1 = fld ++ "_" ++ pyNatStr u2 ++ t2) :
    u1 = u2 := by
  have hd := congrArg String.data he
  simp only [String.data_append, List.append_assoc] at hd
  have hd2 := List.append_cancel_left hd
  simp only [List.singleton_append] at hd2
  injection hd2 with _ hcore
  rcases h1 with e1 | ⟨r1, e1⟩ <;> rcases h2 with e2 | ⟨r2, e2⟩
  · rw [e1, e2, List.append_nil, List.append_nil] at hcore
    exact pyNatStr_inj (String.ext hcore)
  · exfalso
    rw [e1, e2, List.append_nil] at hcore
    have hmem : '_' ∈ (pyNatStr u1).data := by
      rw [hcore]; exact List.mem_append_right _ (by simp)
    exact pyNatStr_ne_underscore u1 '_' hmem rfl
  · exfalso
    rw [e1, e2, List.append_nil] at hcore
    have hmem : '_' ∈ (pyNatStr u2).data := by
      rw [← hcore]; exact List.mem_append_right _ (by simp)
    exact pyNatStr_ne_underscore u2 '_' hmem rfl
  · rw [e1, e2] at hcore
    have hsp := split_first_underscore (pyNatStr u1).data r1 (pyNatStr u2).data r2
      (pyNatStr_ne_underscore u1) (pyNatStr_ne_underscore u2) hcore
    exact pyNatStr_inj (String.ext hsp.1)

theorem mem_fst_dictSet {d : List (String × Value)} {k k' : String} {v : Value}
    (h : k' ∈ (dictSet d k v).map Prod.fst) : k' ∈ d.map Prod.fst ∨ k' = k := by
  unfold dictSet at h
  split at h
  · simp only [List.map_map, List.mem_map] at h
    obtain ⟨kv, hkv, heq⟩ := h
    by_cases hk : kv.1 = k
    · right
      simp only [Function.comp_apply, if_pos hk] at heq
      exact heq.symm
    · left
      simp only [Function.comp_apply, if_neg hk] at heq
      exact List.mem_map.mpr ⟨kv, hkv, heq⟩
  · simp only [List.map_append, List.mem_append, List.map_cons, List.mem_singleton] at h
    rcases h with h | h
    · exact .inl h
    · simp only [List.map_nil, List.mem_cons, List.not_mem_nil, or_false] at h
      exact .inr h

theorem dictSet_fresh {d : List (String × Value)} {k : String} {v : Value}
    (h : ∀ kv ∈ d, kv.1 ≠ k) : dictSet d k v = d ++ [(k, v)] := by
  unfold dictSet
  have hany : d.any (fun kv => kv.1 = k) = false := by
    rw [List.any_eq_false]
    intro kv hkv
    simpa using h kv hkv
  rw [hany]
  simp

theorem mem_fst_dictUpdate :
    ∀ (ps d : List (String × Value)) (k' : String),
      k' ∈ (dictUpdate d ps).map Prod.fst → k' ∈ d.map Prod.fst ∨ k' ∈ ps.map Prod.fst := by
  intro ps
  induction ps with
  | nil => intro d k' h; exact .inl h
  | cons p ps ih =>
    intro d k' h
    have h2 : k' ∈ (dictUpdate (dictSet d p.1 p.2) ps).map Prod.fst := h
    rcases ih (dictSet d p.1 p.2) k' h2 with h' | h'
    · rcases mem_fst_dictSet h' with h'' | h''
      · exact .inl h''
      · exact .inr (by simp [h''])
    · exact .inr (by simp [h'])

theorem dictUpdate_append :
    ∀ (ps d : List (String × Value)),
      (∀ kv ∈ ps, ∀ kv' ∈ d, kv'.1 ≠ kv.1) → (ps.map Prod.fst).Nodup →
      dictUpdate d ps = d ++ ps := by
  intro ps
  induction ps with
  | nil => intro d _ _; simp [dictUpdate]
  | cons p ps ih =>
    intro d hf hnd
    have h1 : dictSet d p.1 p.2 = d ++ [p] := by
      rw [dictSet_fresh (fun kv hkv => hf p (by simp) kv hkv)]
    have hstep : dictUpdate d (p :: ps) = dictUpdate (dictSet d p.1 p.2) ps := rfl
    rw [hstep, h1, ih (d ++ [p]) ?_ ?_]
    · simp
    · intro kv hkv kv' hkv'
      rcases List.mem_append.mp hkv' with h' | h'
      · exact hf kv (by simp [hkv]) kv' h'
      · simp only [List.mem_singleton] at h'
        subst h'
        have : kv.1 ∈ ps.map Prod.fst := List.mem_map.mpr ⟨kv, hkv, rfl⟩
        intro hc
        rw [List.map_cons, List.nodup_cons] at hnd
        exact hnd.1 (hc ▸ this)
    · rw [List.map_cons, List.nodup_cons] at hnd
      exact hnd.2

/-! ### Parameter keys of `Condition.to_sql` -/

theorem toSql_keys_sub {c : Condition} {d ph qc : String}
    {w : String → String → Value → String} {frag : String} {m : List (String × Value)}
    (h : c.toSql d ph qc w = .ok (frag, m)) :
    ∀ k ∈ m.map Prod.fst, k ∈ keyForms c := by
  intro k hk
  simp only [Condition.toSql] at h
  simp only [keyForms]
  by_cases h1 : c.op = "IS NULL" ∨ c.op = "IS NOT NULL"
  · rw [if_pos h1] at h
    rw [if_pos h1]
    simp only [Except.ok.injEq, Prod.mk.injEq] at h
    rw [← h.2] at hk
    simp at hk
  · rw [if_neg h1] at h
    rw [if_neg h1]
    by_cases h2 : c.op = "BETWEEN"
    · rw [if_pos h2] at h
      rw [if_pos h2]
      match hv : c.values with
      | [] => rw [hv] at h; simp at h
      | [v0] => rw [hv] at h; simp at h
      | v0 :: v1 :: rest =>
        rw [hv] at h
        simp only [Except.ok.injEq, Prod.mk.injEq] at h
        rw [← h.2] at hk
        rcases mem_fst_dictSet hk with hk' | hk'
        · rcases mem_fst_dictSet hk' with hk'' | hk''
          · simp at hk''
          · simp [hk'']
        · simp [hk']
    · rw [if_neg h2] at h
      rw [if_neg h2]
      by_cases h3 : c.op = "IN" ∨ c.op = "NOT IN"
      · rw [if_pos h3] at h
        rw [if_pos h3]
        simp only [Except.ok.injEq, Prod.mk.injEq] at h
        rw [← h.2] at hk
        rcases mem_fst_dictUpdate _ [] k hk with hk' | hk'
        · simp at hk'
        · rw [List.map_map] at hk'
          rw [← List.enum_map_fst c.values, List.map_map]
          exact hk'
      · rw [if_neg h3] at h
        rw [if_neg h3]
        by_cases h4 : c.op = "LIKE" ∨ c.op = "ILIKE"
        · rw [if_pos h4] at h
          match hv : c.values with
          | [] => rw [hv] at h; simp at h
          | v0 :: rest =>
            rw [hv] at h
            simp only [Except.ok.injEq, Prod.mk.injEq] at h
            rw [← h.2] at hk
            rcases mem_fst_dictSet hk with hk' | hk'
            · simp at hk'
            · simp [hk']
        · rw [if_neg h4] at h
          by_cases h5 : c.op = "=" ∨ c.op = "!=" ∨ c.op = "<>" ∨ c.op = "<" ∨ c.op = ">"
              ∨ c.op = "<=" ∨ c.op = ">="
          · rw [if_pos h5] at h
            match hv : c.values with
            | [] => rw [hv] at h; simp at h
            | v0 :: rest =>
              rw [hv] at h
              simp only [Except.ok.injEq, Prod.mk.injEq] at h
              rw [← h.2] at hk
              rcases mem_fst_dictSet hk with hk' | hk'
              · simp at hk'
              · simp [hk']
          · rw [if_neg h5] at h
            simp at h

theorem mem_keyForms_shape {c : Condition} {k : String} (h : k ∈ keyForms c) :
    ∃ t, TailShape t ∧ k = c.field ++ "_" ++ pyNatStr c.uid ++ t := by
  simp only [keyForms] at h
  by_cases h1 : c.op = "IS NULL" ∨ c.op = "IS NOT NULL"
  · rw [if_pos h1] at h
    simp at h
  · rw [if_neg h1] at h
    by_cases h2 : c.op = "BETWEEN"
    · rw [if_pos h2] at h
      simp only [List.mem_cons, List.not_mem_nil, or_false] at h
      rcases h with h | h
      · exact ⟨"_min", .inr ⟨['m', 'i', 'n'], rfl⟩, h⟩
      · exact ⟨"_max", .inr ⟨['m', 'a', 'x'], rfl⟩, h⟩
    · rw [if_neg h2] at h
      by_cases h3 : c.op = "IN" ∨ c.op = "NOT IN"
      · rw [if_pos h3] at h
        rw [List.mem_map] at h
        obtain ⟨i, _, hi⟩ := h
        refine ⟨"_" ++ pyNatStr i, .inr ⟨(pyNatStr i).data, ?_⟩, ?_⟩
        · rw [String.data_append]
          rfl
        · rw [← hi, String.append_assoc]
      · rw [if_neg h3] at h
        simp only [List.mem_singleton] at h
        exact ⟨"", .inl rfl, by rw [h, String.append_empty]⟩

/-- C3 (amended): two distinct condition objects (their instance ids differ)
with the same field always generate disjoint parameter-key sets. -/
theorem condition_same_field_params_disjoint
    (c1 c2 : Condition) (d1 p1 q1 d2 p2 q2 : String)
    (w1 w2 : String → String → Value → String) (f1 f2 : String)
    (m1 m2 : List (String × Value))
    (h1 : c1.toSql d1 p1 q1 w1 = .ok (f1, m1))
    (h2 : c2.toSql d2 p2 q2 w2 = .ok (f2, m2))
    (hf : c1.field = c2.field) (hu : c1.uid ≠ c2.uid) :
    ∀ k, k ∈ m1.map Prod.fst → k ∉ m2.map Prod.fst := by
  intro k hk1 hk2
  obtain ⟨t1, ht1, e1⟩ := mem_keyForms_shape (toSql_keys_sub h1 k hk1)
  obtain ⟨t2, ht2, e2⟩ := mem_keyForms_shape (toSql_keys_sub h2 k hk2)
  rw [hf] at e1
  exact hu (key_eq_uid_eq c2.field c1.uid c2.uid t1 t2 ht1 ht2 (e1.symm.trans e2))

/-- C3 counterexample: the claim quantifies over conditions on arbitrary
fields; the IN condition on field `a` (instance id 1, three values) and the
equality condition on field `a_1` (instance id 2) both generate the parameter
key `a_1_2`, so their key sets are not disjoint and merging loses an entry. -/
theorem condition_param_key_collision_cx :
    (Condition.mk "a" "IN" [.intV 1, .intV 2, .intV 3] 1 none).toSql "sqlite" ":" "\""
        (wrapDt "sqlite")
      = .ok ("\"a\" IN (:a_1_0,:a_1_1,:a_1_2)",
             [("a_1_0", .intV 1), ("a_1_1", .intV 2), ("a_1_2", .intV 3)])
    ∧ (Condition.mk "a_1" "=" [.intV 5] 2 none).toSql "sqlite" ":" "\"" (wrapDt "sqlite")
      = .ok ("\"a_1\" = :a_1_2", [("a_1_2", .intV 5)])
    ∧ Condition.mk "a" "IN" [.intV 1, .intV 2, .intV 3] 1 none
        ≠ Condition.mk "a_1" "=" [.intV 5] 2 none
    ∧ ("a_1_2" ∈ ([("a_1_0", Value.intV 1), ("a_1_1", .intV 2), ("a_1_2", .intV 3)]).map Prod.fst)
    ∧ ("a_1_2" ∈ ([("a_1_2", Value.intV 5)]).map Prod.fst)
    ∧ (dictUpdate [("a_1_0", Value.intV 1), ("a_1_1", .intV 2), ("a_1_2", .intV 3)]
        [("a_1_2", .intV 5)]).length = 3 := by
  exact ⟨rfl, rfl, by decide, by decide, by decide, by decide⟩

/-- Witness for the amended C3 theorem at concrete same-field conditions. -/
theorem condition_same_field_params_disjoint_witness :
    "a_1_0" ∉ ([("a_2", Value.intV 5)]).map Prod.fst :=
  condition_same_field_params_disjoint
    (Condition.mk "a" "IN" [.intV 1, .intV 2, .intV 3] 1 none)
    (Condition.mk "a" "=" [.intV 5] 2 none)
    "sqlite" ":" "\"" "sqlite" ":" "\"" (wrapDt "sqlite") (wrapDt "sqlite")
    "\"a\" IN (:a_1_0,:a_1_1,:a_1_2)" "\"a\" = :a_2"
    [("a_1_0", .intV 1), ("a_1_1", .intV 2), ("a_1_2", .intV 3)] [("a_2", .intV 5)]
    rfl rfl rfl (by decide) "a_1_0" (by decide)

/-- C8: for canonical conditions `to_sql` emits the specified shapes: null
tests bind no parameters; BETWEEN binds exactly two parameters
`{field}_{instanceId}_min/_max` to `values[0]` and `values[1]`; IN / NOT IN
bind one parameter `{field}_{instanceId}_{i}` per value, and the fragment
lists the placeholders in value order. -/
theorem condition_to_sql_shapes (c : Condition) (d ph qc : String)
    (w : String → String → Value → String) :
    ((c.op = "IS NULL" ∨ c.op = "IS NOT NULL") →
      ∃ frag, c.toSql d ph qc w = .ok (frag, []))
    ∧ (∀ v0 v1 rest, c.op = "BETWEEN" → c.values = v0 :: v1 :: rest →
        c.toSql d ph qc w = .ok
          (condCol c qc ++ " BETWEEN " ++ ph ++ (c.field ++ "_" ++ pyNatStr c.uid)
              ++ "_min AND " ++ ph ++ (c.field ++ "_" ++ pyNatStr c.uid) ++ "_max",
           [(c.field ++ "_" ++ pyNatStr c.uid ++ "_min", v0),
            (c.field ++ "_" ++ pyNatStr c.uid ++ "_max", v1)]))
    ∧ ((c.op = "IN" ∨ c.op = "NOT IN") →
        ∃ frag prms, c.toSql d ph qc w = .ok (frag, prms)
          ∧ prms.length = c.values.length
          ∧ (∀ i v, c.values.get? i = some v →
              prms.get? i = some (c.field ++ "_" ++ pyNatStr c.uid ++ "_" ++ pyNatStr i, v))
          ∧ frag = condCol c qc ++ " " ++ c.op ++ " ("
              ++ joinSep "," (prms.map (fun kv => ph ++ kv.1)) ++ ")") := by
  refine ⟨?_, ?_, ?_⟩
  · intro h1
    refine ⟨condCol c qc ++ " " ++ c.op, ?_⟩
    simp only [Condition.toSql]
    rw [if_pos h1]
  · intro v0 v1 rest hop hv
    have h1 : ¬(c.op = "IS NULL" ∨ c.op = "IS NOT NULL") := by simp [hop]
    simp only [Condition.toSql]
    rw [if_neg h1, if_pos hop, hv]
    have hne : (c.field ++ "_" ++ pyNatStr c.uid) ++ "_min"
        ≠ (c.field ++ "_" ++ pyNatStr c.uid) ++ "_max" := by
      intro hcontra
      exact absurd (strAppend_cancel_left hcontra) (by decide)
    have e1 : dictSet [] (c.field ++ "_" ++ pyNatStr c.uid ++ "_min") v0
        = [(c.field ++ "_" ++ pyNatStr c.uid ++ "_min", v0)] := by
      simp [dictSet]
    have e2 : dictSet [(c.field ++ "_" ++ pyNatStr c.uid ++ "_min", v0)]
          (c.field ++ "_" ++ pyNatStr c.uid ++ "_max") v1
        = [(c.field ++ "_" ++ pyNatStr c.uid ++ "_min", v0),
           (c.field ++ "_" ++ pyNatStr c.uid ++ "_max", v1)] := by
      rw [dictSet_fresh ?_]
      · rfl
      · intro kv hkv
        simp only [List.mem_singleton] at hkv
        rw [hkv]
        exact hne
    simp only [e1, e2]
  · intro h3
    have h1 : ¬(c.op = "IS NULL" ∨ c.op = "IS NOT NULL") := by
      rcases h3 with h | h <;> simp [h]
    have h2 : ¬(c.op = "BETWEEN") := by rcases h3 with h | h <;> simp [h]
    simp only [Condition.toSql]
    rw [if_neg h1, if_neg h2, if_pos h3]
    have hinj : Function.Injective
        (fun i => (c.field ++ "_" ++ pyNatStr c.uid) ++ "_" ++ pyNatStr i) := by
      intro a b hab
      exact pyNatStr_inj (strAppend_cancel_left hab)
    have hps : dictUpdate []
          (c.values.enum.map
            (fun iv => (c.field ++ "_" ++ pyNatStr c.uid ++ "_" ++ pyNatStr iv.1, iv.2)))
        = c.values.enum.map
            (fun iv => (c.field ++ "_" ++ pyNatStr c.uid ++ "_" ++ pyNatStr iv.1, iv.2)) := by
      apply dictUpdate_append
      · intro kv _ kv' h'
        simp at h'
      · rw [List.map_map]
        have hcomp : (Prod.fst ∘
              fun iv : Nat × Value =>
                (c.field ++ "_" ++ pyNatStr c.uid ++ "_" ++ pyNatStr iv.1, iv.2))
            = (fun i => (c.field ++ "_" ++ pyNatStr c.uid) ++ "_" ++ pyNatStr i) ∘ Prod.fst :=
          rfl
        rw [hcomp, ← List.map_map, List.enum_map_fst]
        exact (List.nodup_range _).map hinj
    refine ⟨_, _, rfl, ?_, ?_, ?_⟩
    · rw [hps, List.length_map, List.enum_length]
    · intro i v hiv
      rw [hps, List.get?_map, List.get?_enum, hiv]
      rfl
    · rw [hps]
      have hmaps : (c.values.enum.map
            (fun iv => (c.field ++ "_" ++ pyNatStr c.uid ++ "_" ++ pyNatStr iv.1, iv.2))).map
              (fun kv => ph ++ kv.1)
          = (List.range c.values.length).map
              (fun i => ph ++ (c.field ++ "_" ++ pyNatStr c.uid) ++ "_" ++ pyNatStr i) := by
        rw [List.map_map]
        have hcomp : ((fun kv : String × Value => ph ++ kv.1) ∘
              fun iv : Nat × Value =>
                (c.field ++ "_" ++ pyNatStr c.uid ++ "_" ++ pyNatStr iv.1, iv.2))
            = (fun i => ph ++ (c.field ++ "_" ++ pyNatStr c.uid) ++ "_" ++ pyNatStr i)
                ∘ Prod.fst := by
          funext iv
          simp only [Function.comp_apply]
          simp [String.append_assoc]
        rw [hcomp, ← List.map_map, List.enum_map_fst]
      rw [hmaps]

/-- Witness for C8 at a concrete canonical BETWEEN condition. -/
theorem condition_to_sql_shapes_witness :
    (Condition.mk "age" "BETWEEN" [.intV 18, .intV 30] 7 none).toSql "postgresql" ":" "\""
        (wrapDt "postgresql")
      = .ok ("\"age\" BETWEEN :age_7_min AND :age_7_max",
             [("age_7_min", Value.intV 18), ("age_7_max", Value.intV 30)]) :=
  (condition_to_sql_shapes (Condition.mk "age" "BETWEEN" [.intV 18, .intV 30] 7 none)
      "postgresql" ":" "\"" (wrapDt "postgresql")).2.1 (.intV 18) (.intV 30) [] rfl rfl

/-! ### Absence of a WHERE clause: space-`W` pair search -/

theorem hasPair_cons_cons (a b : Char) (t : List Char) :
    hasPair (a :: b :: t) = ((a = ' ' && b = 'W') || hasPair (b :: t)) := rfl

theorem hasPair_append_false :
    ∀ (a b : List Char), hasPair a = false → hasPair b = false →
      (a.getLast? = some ' ' → b.head? = some 'W' → False) →
      hasPair (a ++ b) = false := by
  intro a
  induction a with
  | nil => intro b _ hb _; simpa using hb
  | cons x xs ih =>
    intro b ha hb hbd
    cases xs with
    | nil =>
      cases b with
      | nil => rfl
      | cons y t =>
        show ((x = ' ' && y = 'W') || hasPair (y :: t)) = false
        rw [hb, Bool.or_false]
        by_cases hx : x = ' '
        · by_cases hy : y = 'W'
          · exact ((hbd (by simp [hx]) (by simp [hy]))).elim
          · simp [hy]
        · simp [hx]
    | cons y ys =>
      have hxs : hasPair (y :: ys) = false := by
        rw [hasPair_cons_cons] at ha
        exact (Bool.or_eq_false_iff.mp ha).2
      have hrec : hasPair ((y :: ys) ++ b) = false := by
        apply ih b hxs hb
        intro hl hh
        apply hbd ?_ hh
        rw [List.getLast?_cons_cons]
        exact hl
      show ((x = ' ' && y = 'W') || hasPair ((y :: ys) ++ b)) = false
      rw [hrec, Bool.or_false]
      rw [hasPair_cons_cons] at ha
      exact (Bool.or_eq_false_iff.mp ha).1

theorem hasPair_chain (a b : List Char) (ha : hasPair a = false) (hb : hasPair b = false)
    (hx : a.getLast? ≠ some ' ' ∨ b.head? ≠ some 'W') : hasPair (a ++ b) = false :=
  hasPair_append_false a b ha hb (fun h1 h2 => by
    rcases hx with hx | hx
    exacts [hx h1, hx h2])

theorem hasPair_no_space : ∀ (l : List Char), (∀ c ∈ l, c ≠ ' ') → hasPair l = false := by
  intro l
  induction l with
  | nil => intro _; rfl
  | cons x xs ih =>
    intro h
    cases xs with
    | nil => rfl
    | cons y ys =>
      rw [hasPair_cons_cons, ih (fun c hc => h c (List.mem_cons_of_mem _ hc)), Bool.or_false]
      simp [h x (by simp)]

theorem hasPair_cons_of_ne_space (a : Char) (l : List Char) (ha : a ≠ ' ')
    (hl : hasPair l = false) : hasPair (a :: l) = false := by
  cases l with
  | nil => rfl
  | cons y t => rw [hasPair_cons_cons, hl, Bool.or_false]; simp [ha]

theorem hasPair_cons_space (l : List Char) (hl : hasPair l = false)
    (hh : l.head? ≠ some 'W') : hasPair (' ' :: l) = false := by
  cases l with
  | nil => rfl
  | cons y t =>
    rw [hasPair_cons_cons, hl, Bool.or_false]
    have : y ≠ 'W' := by simpa using hh
    simp [this]

theorem hasPair_middle : ∀ (l m : List Char), hasPair (l ++ ' ' :: 'W' :: m) = true := by
  intro l
  induction l with
  | nil => intro m; rw [List.nil_append, hasPair_cons_cons]; simp
  | cons x xs ih =>
    intro m
    cases xs with
    | nil =>
      show hasPair (x :: ' ' :: 'W' :: m) = true
      rw [hasPair_cons_cons]
      have : hasPair (' ' :: 'W' :: m) = true := by rw [hasPair_cons_cons]; simp
      simp [this]
    | cons y ys =>
      show hasPair (x :: y :: (ys ++ ' ' :: 'W' :: m)) = true
      rw [hasPair_cons_cons]
      have hys := ih m
      rw [List.cons_append] at hys
      simp [hys]

theorem noWhere_of_hasPair_false {s : List Char} (h : hasPair s = false) :
    ∀ l r : List Char, s ≠ l ++ (" WHERE ").data ++ r := by
  intro l r he
  have hw : (" WHERE ").data = ' ' :: 'W' :: ['H', 'E', 'R', 'E', ' '] := rfl
  rw [he, hw, List.append_assoc, List.cons_append, List.cons_append] at h
  rw [hasPair_middle] at h
  exact absurd h (by simp)

/-! ### Identifier and quote-character facts -/

theorem mem_of_getLast?_eq : ∀ {l : List Char} {a : Char}, l.getLast? = some a → a ∈ l := by
  intro l
  induction l with
  | nil => intro a h; simp at h
  | cons x xs ih =>
    intro a h
    cases xs with
    | nil =>
      simp only [List.getLast?_singleton, Option.some.injEq] at h
      simp [h]
    | cons y ys =>
      rw [List.getLast?_cons_cons] at h
      exact List.mem_cons_of_mem _ (ih h)

theorem pyIdent_no_space {k : String} (h : pyIdentMatch k = true) : ∀ c ∈ k.data, c ≠ ' ' := by
  intro c hc
  simp only [pyIdentMatch, Bool.and_eq_true] at h
  by_cases hl : k.data.getLast? = some '\n'
  · rw [if_pos hl] at h
    have hne : k.data ≠ [] := by
      intro hk
      rw [hk] at hl
      simp at hl
    rcases List.mem_append.mp ((List.dropLast_append_getLast hne).symm ▸ hc) with h' | h'
    · have hw := List.all_eq_true.mp h.2 c h'
      intro hsp
      rw [hsp] at hw
      exact absurd hw (by decide)
    · simp only [List.mem_singleton] at h'
      have hlast : k.data.getLast hne = '\n' := by
        have h2 := List.getLast?_eq_getLast k.data hne
        rw [hl] at h2
        exact ((Option.some.injEq ..).mp h2).symm
      rw [h', hlast]
      decide
  · rw [if_neg hl] at h
    have hw := List.all_eq_true.mp h.2 c hc
    intro hsp
    rw [hsp] at hw
    exact absurd hw (by decide)

theorem pyIdent_getLast_ne_space {k : String} (h : pyIdentMatch k = true) :
    k.data.getLast? ≠ some ' ' :=
  fun hl => pyIdent_no_space h ' ' (mem_of_getLast?_eq hl) rfl

theorem quote_chars_cases (d : String) : quote_chars d = "`" ∨ quote_chars d = "\"" := by
  unfold quote_chars
  split
  · exact .inl rfl
  · exact .inr rfl

theorem quote_hasPair (d : String) : hasPair (quote_chars d).data = false := by
  rcases quote_chars_cases d with h | h <;> rw [h] <;> rfl

theorem quote_last_ne_space (d : String) : (quote_chars d).data.getLast? ≠ some ' ' := by
  rcases quote_chars_cases d with h | h <;> rw [h] <;> decide

theorem quote_head_append_ne_W (d : String) (rest : List Char) :
    ((quote_chars d).data ++ rest).head? ≠ some 'W' := by
  rcases quote_chars_cases d with h | h <;> rw [h] <;> simp

/-- The `SET` assignment produced for one data key contains no space-`W`
pair, and starts with the quote character. -/
theorem hasPair_set_elem (d k : String) (hk : pyIdentMatch k = true) :
    hasPair (quote_chars d ++ k ++ quote_chars d ++ " = " ++ placeholders d
      ++ "set_" ++ k).data = false := by
  have hks : ∀ c ∈ k.data, c ≠ ' ' := pyIdent_no_space hk
  have hkl : k.data.getLast? ≠ some ' ' := pyIdent_getLast_ne_space hk
  simp only [String.data_append, placeholders, List.append_assoc]
  refine hasPair_chain _ _ (quote_hasPair d) ?_ (.inl (quote_last_ne_space d))
  refine hasPair_chain _ _ (hasPair_no_space _ hks) ?_ (.inl hkl)
  refine hasPair_chain _ _ (quote_hasPair d) ?_ (.inl (quote_last_ne_space d))
  show hasPair (' ' :: '=' :: ' ' :: ':' :: 's' :: 'e' :: 't' :: '_' :: k.data) = false
  apply hasPair_cons_space _ ?_ (by simp)
  apply hasPair_cons_of_ne_space _ _ (by decide)
  apply hasPair_cons_space _ ?_ (by simp)
  apply hasPair_cons_of_ne_space _ _ (by decide)
  apply hasPair_cons_of_ne_space _ _ (by decide)
  apply hasPair_cons_of_ne_space _ _ (by decide)
  apply hasPair_cons_of_ne_space _ _ (by decide)
  exact hasPair_cons_of_ne_space _ _ (by decide) (hasPair_no_space _ hks)

/-- Joining clause pieces with `", "` preserves pair-freedom, and the joined
text cannot start with `W` if no piece does. -/
theorem hasPair_joinSep :
    ∀ (l : List String), (∀ e ∈ l, hasPair e.data = false ∧ e.data.head? ≠ some 'W') →
      hasPair (joinSep ", " l).data = false ∧ (joinSep ", " l).data.head? ≠ some 'W' := by
  intro l
  induction l with
  | nil => intro _; exact ⟨rfl, by decide⟩
  | cons x xs ih =>
    intro h
    cases xs with
    | nil => exact h x (by simp)
    | cons y ys =>
      have hx := h x (by simp)
      have hrest := ih (fun e he => h e (by simp [he]))
      have hdata : (joinSep ", " (x :: y :: ys)).data
          = x.data ++ (',' :: ' ' :: (joinSep ", " (y :: ys)).data) := by
        show (x ++ ", " ++ joinSep ", " (y :: ys)).data = _
        simp [String.data_append]
      constructor
      · rw [hdata]
        refine hasPair_chain _ _ hx.1 ?_ (.inr (by simp))
        apply hasPair_cons_of_ne_space _ _ (by decide)
        exact hasPair_cons_space _ hrest.1 hrest.2
      · rw [hdata]
        cases hxd : x.data with
        | nil => simp
        | cons c cs =>
          have := hx.2
          rw [hxd] at this
          simpa using this

/-! ### C2: the unsafe-mutation guard of update and delete -/

theorem update_fold_ok (qc ph : String) :
    ∀ (data : List (String × Value)) (acc : List String × List (String × Value)),
      (∀ k ∈ data.map Prod.fst, pyIdentMatch k = true) →
      ∃ prms, data.foldlM (updateStep qc ph) acc
        = .ok (acc.1 ++ data.map
            (fun kv => qc ++ kv.1 ++ qc ++ " = " ++ ph ++ "set_" ++ kv.1), prms) := by
  intro data
  induction data with
  | nil =>
    intro acc _
    refine ⟨acc.2, ?_⟩
    show pure acc = Except.ok (acc.1 ++ [].map _, acc.2)
    rw [List.map_nil, List.append_nil]
    rfl
  | cons kv rest ih =>
    intro acc hk
    have hkv : pyIdentMatch kv.1 = true := hk kv.1 (by simp)
    have hstep : updateStep qc ph acc kv
        = .ok (acc.1 ++ [qc ++ kv.1 ++ qc ++ " = " ++ ph ++ "set_" ++ kv.1],
               dictSet acc.2 ("set_" ++ kv.1) kv.2) := by
      unfold updateStep
      rw [if_neg (by simp [hkv])]
    obtain ⟨prms, hrec⟩ := ih
      (acc.1 ++ [qc ++ kv.1 ++ qc ++ " = " ++ ph ++ "set_" ++ kv.1],
       dictSet acc.2 ("set_" ++ kv.1) kv.2)
      (fun k hk' => hk k (by simp [hk']))
    refine ⟨prms, ?_⟩
    rw [List.foldlM_cons, hstep]
    show List.foldlM (updateStep qc ph) _ rest = _
    rw [hrec]
    simp

/-- The UPDATE statement text assembled for valid identifiers has no
space-`W` adjacency (hence no ` WHERE ` substring). -/
theorem hasPair_update_sql (d table : String) (data : List (String × Value))
    (ht : pyIdentMatch table = true)
    (hk : ∀ k ∈ data.map Prod.fst, pyIdentMatch k = true) :
    hasPair ("UPDATE " ++ quote_chars d ++ table ++ quote_chars d ++ " SET "
      ++ joinSep ", " (data.map
          (fun kv => quote_chars d ++ kv.1 ++ quote_chars d ++ " = " ++ placeholders d
            ++ "set_" ++ kv.1))).data = false := by
  have hJ := hasPair_joinSep (data.map
      (fun kv => quote_chars d ++ kv.1 ++ quote_chars d ++ " = " ++ placeholders d
        ++ "set_" ++ kv.1)) ?_
  · simp only [String.data_append, List.append_assoc]
    refine hasPair_chain _ _ (by decide) ?_ (.inr (quote_head_append_ne_W d _))
    refine hasPair_chain _ _ (quote_hasPair d) ?_ (.inl (quote_last_ne_space d))
    refine hasPair_chain _ _ (hasPair_no_space _ (pyIdent_no_space ht)) ?_
      (.inl (pyIdent_getLast_ne_space ht))
    refine hasPair_chain _ _ (quote_hasPair d) ?_ (.inl (quote_last_ne_space d))
    show hasPair (' ' :: 'S' :: 'E' :: 'T' :: ' ' :: _) = false
    apply hasPair_cons_space _ ?_ (by simp)
    apply hasPair_cons_of_ne_space _ _ (by decide)
    apply hasPair_cons_of_ne_space _ _ (by decide)
    apply hasPair_cons_of_ne_space _ _ (by decide)
    exact hasPair_cons_space _ hJ.1 hJ.2
  · intro e he
    rw [List.mem_map] at he
    obtain ⟨kv, hkv, hkve⟩ := he
    subst hkve
    refine ⟨hasPair_set_elem d kv.1 (hk kv.1 (List.mem_map.mpr ⟨kv, hkv, rfl⟩)), ?_⟩
    simp only [String.data_append, List.append_assoc]
    exact quote_head_append_ne_W d _

/-- The DELETE statement text assembled for a valid table name has no
space-`W` adjacency. -/
theorem hasPair_delete_sql (d table : String) (ht : pyIdentMatch table = true) :
    hasPair ("DELETE FROM " ++ quote_chars d ++ table ++ quote_chars d).data = false := by
  simp only [String.data_append, List.append_assoc]
  refine hasPair_chain _ _ (by decide) ?_ (.inr (quote_head_append_ne_W d _))
  refine hasPair_chain _ _ (quote_hasPair d) ?_ (.inl (quote_last_ne_space d))
  exact hasPair_chain _ _ (hasPair_no_space _ (pyIdent_no_space ht)) (quote_hasPair d)
    (.inl (pyIdent_getLast_ne_space ht))

/-- C2 (amended): for every table name and data keys that pass the identifier
validation, `update` and `delete` with no conditions and `allow_full = False`
raise the unsafe-mutation `ValueError` (validation failures raise their own
errors first, before the guard); with `allow_full = True` the same calls
succeed and return a statement containing no WHERE clause. -/
theorem update_delete_unsafe_mutation_guard
    (b : SQLBuilder) (table : String) (data : List (String × Value)) (expr : Option String)
    (ht : pyIdentMatch table = true) (_hd : data ≠ [])
    (hk : ∀ k ∈ data.map Prod.fst, pyIdentMatch k = true) :
    b.update table data none expr false
        = .error (.valueError "UPDATE without WHERE refused; use allow_full=True if intended")
    ∧ b.delete table none expr false
        = .error (.valueError "DELETE without WHERE refused; use allow_full=True if intended")
    ∧ (∃ sql po, b.update table data none expr true = .ok (sql, po)
        ∧ ∀ l r : List Char, sql.data ≠ l ++ (" WHERE ").data ++ r)
    ∧ (∃ sql po, b.delete table none expr true = .ok (sql, po)
        ∧ ∀ l r : List Char, sql.data ≠ l ++ (" WHERE ").data ++ r) := by
  obtain ⟨prms, hfold0⟩ := update_fold_ok (quote_chars b.dialect) (placeholders b.dialect)
    data ([], []) hk
  have hfold : data.foldlM (updateStep (quote_chars b.dialect) (placeholders b.dialect)) ([], [])
      = .ok (data.map (fun kv => quote_chars b.dialect ++ kv.1 ++ quote_chars b.dialect
          ++ " = " ++ placeholders b.dialect ++ "set_" ++ kv.1), prms) := by
    rw [hfold0]
    simp
  have hupdate : b.update table data none expr true
      = (if (b.dialect = "mysql" || b.dialect = "sqlite") = true then
          .ok ("UPDATE " ++ quote_chars b.dialect ++ table ++ quote_chars b.dialect
            ++ " SET " ++ joinSep ", " (data.map (fun kv => quote_chars b.dialect
              ++ kv.1 ++ quote_chars b.dialect ++ " = " ++ placeholders b.dialect
              ++ "set_" ++ kv.1)), ParamsOut.positional (prms.map Prod.snd))
        else
          .ok ("UPDATE " ++ quote_chars b.dialect ++ table ++ quote_chars b.dialect
            ++ " SET " ++ joinSep ", " (data.map (fun kv => quote_chars b.dialect
              ++ kv.1 ++ quote_chars b.dialect ++ " = " ++ placeholders b.dialect
              ++ "set_" ++ kv.1)), ParamsOut.named prms)) := by
    simp only [SQLBuilder.update]
    rw [if_neg (by simp [ht]), hfold]
    rfl
  refine ⟨?_, ?_, ?_, ?_⟩
  · simp only [SQLBuilder.update]
    rw [if_neg (by simp [ht]), hfold]
    rfl
  · simp only [SQLBuilder.delete]
    rw [if_neg (by simp [ht])]
    rfl
  · have hnw := noWhere_of_hasPair_false
      (hasPair_update_sql b.dialect table data ht hk)
    by_cases hdia : (b.dialect = "mysql" || b.dialect = "sqlite") = true
    · rw [if_pos hdia] at hupdate
      exact ⟨_, _, hupdate, hnw⟩
    · rw [if_neg hdia] at hupdate
      exact ⟨_, _, hupdate, hnw⟩
  · have hdelete : b.delete table none expr true
        = (if (b.dialect = "mysql" || b.dialect = "sqlite") = true then
            .ok ("DELETE FROM " ++ quote_chars b.dialect ++ table ++ quote_chars b.dialect,
              ParamsOut.positional (([] : List (String × Value)).map Prod.snd))
          else
            .ok ("DELETE FROM " ++ quote_chars b.dialect ++ table ++ quote_chars b.dialect,
              ParamsOut.named [])) := by
      simp only [SQLBuilder.delete]
      rw [if_neg (by simp [ht])]
      rfl
    have hnw := noWhere_of_hasPair_false (hasPair_delete_sql b.dialect table ht)
    by_cases hdia : (b.dialect = "mysql" || b.dialect = "sqlite") = true
    · rw [if_pos hdia] at hdelete
      exact ⟨_, _, hdelete, hnw⟩
    · rw [if_neg hdia] at hdelete
      exact ⟨_, _, hdelete, hnw⟩

/-- C2 counterexample: for a table name failing the identifier validation,
`update` with no conditions raises the invalid-table `ValueError`, not the
unsafe-mutation error, so the claim's quantification over every table name
fails. -/
theorem update_invalid_table_error_cx :
    (mkSQLBuilder "postgresql").update "a b" [("x", .intV 1)] none none false
      = .error (.valueError "Invalid table name: a b")
    ∧ .valueError "Invalid table name: a b"
      ≠ PyErr.valueError "UPDATE without WHERE refused; use allow_full=True if intended" :=
  ⟨rfl, by decide⟩

/-- Witness for the amended C2 theorem at a concrete valid call. -/
theorem update_delete_unsafe_mutation_guard_witness :
    (mkSQLBuilder "postgresql").update "t" [("x", Value.intV 1)] none none false
      = .error (.valueError "UPDATE without WHERE refused; use allow_full=True if intended") :=
  (update_delete_unsafe_mutation_guard (mkSQLBuilder "postgresql") "t"
    [("x", Value.intV 1)] none (by decide) (by decide) (by decide)).1

/-! ### C1: select quotes list-form columns but validates only the table -/

/-- C1 (amended): whenever a `select` call with list-form columns succeeds,
the table name passed the identifier validation and the emitted SQL embeds
every column name wrapped in the dialect's quote character — but the column
names themselves are not validated (see the counterexample). -/
theorem select_quotes_columns_validates_table
    (b : SQLBuilder) (table : String) (cols : List String)
    (conditions : Option (List Condition)) (expression : Option String)
    (order_by : Option (List (String × String))) (limit offs : Option Int)
    (group_by : Option (List String)) (having : Option (List Condition))
    (having_expr : Option String) (sql : String) (prms : List (String × Value))
    (h : b.select table (.listC cols) conditions expression order_by limit offs
        group_by having having_expr = .ok (sql, prms)) :
    pyIdentMatch table = true
    ∧ ∃ rest, sql = "SELECT "
        ++ joinSep ", " (cols.map (fun c => quote_chars b.dialect ++ c ++ quote_chars b.dialect))
        ++ " FROM " ++ quote_chars b.dialect ++ table ++ quote_chars b.dialect ++ rest := by
  simp only [SQLBuilder.select] at h
  by_cases ht : pyIdentMatch table = true
  · rw [if_neg (by simp [ht])] at h
    refine ⟨ht, ?_⟩
    split at h
    · exact absurd h (by simp)
    · split at h
      · exact absurd h (by simp)
      · split at h
        · exact absurd h (by simp)
        · simp only [Except.ok.injEq, Prod.mk.injEq] at h
          rename_i x1 wp heq1 x2 gp heq2 x3 obs heq3
          refine ⟨wp.1 ++ (gp.1 ++ (obs ++ pagClause b.dialect limit offs)), ?_⟩
          rw [← h.1]
          simp [String.append_assoc]
  · rw [if_pos (by simpa using ht)] at h
    exact absurd h (by simp)

/-- C1 counterexample: a list-form column name that fails the
`^[A-Za-z0-9_]+$` validation is embedded (quoted) in the emitted SQL; no
validation error is raised. -/
theorem select_unvalidated_column_cx :
    (mkSQLBuilder "sqlite").select "t" (.listC ["a b; DROP"]) none none none none none
        none none none
      = .ok ("SELECT \"a b; DROP\" FROM \"t\"", [])
    ∧ pyIdentMatch "a b; DROP" = false :=
  ⟨rfl, by decide⟩

/-- Witness for the amended C1 theorem at a concrete successful call. -/
theorem select_quotes_columns_validates_table_witness :
    pyIdentMatch "t" = true
    ∧ ∃ rest, "SELECT `a`, `b` FROM `t`" = "SELECT "
        ++ joinSep ", " (["a", "b"].map
            (fun c => quote_chars (mkSQLBuilder "mysql").dialect ++ c
              ++ quote_chars (mkSQLBuilder "mysql").dialect))
        ++ " FROM " ++ quote_chars (mkSQLBuilder "mysql").dialect ++ "t"
        ++ quote_chars (mkSQLBuilder "mysql").dialect ++ rest :=
  select_quotes_columns_validates_table (mkSQLBuilder "mysql") "t" ["a", "b"]
    none none none none none none none none "SELECT `a`, `b` FROM `t`" [] rfl

/-! ### C4-C7: code_bug evidence -/

/-- C4: the mysql/sqlite branch of `adapt_sql` returns `list(params.values())`
in dict-insertion order, not in placeholder first-occurrence order.  Evidence
at a pipeline-produced input: `build_where` with the combination expression
`"2 AND 1"` reorders the fragments, so the rewritten SQL reads the `b`
placeholder first while the returned positional sequence still leads with the
`a` value — the claimed first-occurrence correspondence fails. -/
theorem adapt_sql_positional_order_mismatch :
    buildWhere "sqlite" ":" "\""
        [Condition.mk "a" "=" [.intV 30] 1 none, Condition.mk "b" "=" [.intV 40] 2 none]
        (some "2 AND 1")
      = .ok ("\"b\" = :b_2 AND \"a\" = :a_1", [("a_1", .intV 30), ("b_2", .intV 40)])
    ∧ adapt_sql "\"b\" = :b_2 AND \"a\" = :a_1" [("a_1", .intV 30), ("b_2", .intV 40)] "sqlite"
      = .ok ("\"b\" = ? AND \"a\" = ?", .positional [.intV 30, .intV 40])
    ∧ namedPlaceholders "\"b\" = :b_2 AND \"a\" = :a_1" = ["b_2", "a_1"]
    ∧ (namedPlaceholders "\"b\" = :b_2 AND \"a\" = :a_1").map
        (fun n => List.lookup n [("a_1", Value.intV 30), ("b_2", .intV 40)])
      = [some (.intV 40), some (.intV 30)]
    ∧ [Value.intV 30, .intV 40] ≠ [Value.intV 40, .intV 30] :=
  ⟨rfl, rfl, by decide, by decide, by decide⟩

/-- C5: the pagination branches of `select` test the dialect against
`'postgres'`, a name nothing else in the system produces (`SqlCon` normalises
`postgres` to `postgresql`), so a builder constructed with the documented
dialect name `postgresql` emits no pagination clause at all even when `limit`
and `offset` are given; the four other documented names do emit one. -/
theorem select_postgresql_emits_no_pagination :
    (mkSQLBuilder "postgresql").select "t" (.strC "*") none none none (some 5) (some 2)
        none none none
      = .ok ("SELECT * FROM \"t\"", [])
    ∧ containsPat "OFFSET".data ("SELECT * FROM \"t\"").data = false
    ∧ containsPat "LIMIT".data ("SELECT * FROM \"t\"").data = false
    ∧ containsPat "FETCH".data ("SELECT * FROM \"t\"").data = false
    ∧ (mkSQLBuilder "postgres").select "t" (.strC "*") none none none (some 5) (some 2)
        none none none
      = .ok ("SELECT * FROM \"t\" OFFSET 2 LIMIT 5", [])
    ∧ (mkSQLBuilder "sqlite").select "t" (.strC "*") none none none (some 5) (some 2)
        none none none
      = .ok ("SELECT * FROM \"t\" OFFSET 2 LIMIT 5", [])
    ∧ (mkSQLBuilder "oracle").select "t" (.strC "*") none none none (some 5) (some 2)
        none none none
      = .ok ("SELECT * FROM \"t\" OFFSET 2 ROWS FETCH NEXT 5 ROWS ONLY", [])
    ∧ (mkSQLBuilder "mssql").select "t" (.strC "*") none none none (some 5) (some 2)
        none none none
      = .ok ("SELECT * FROM \"t\" OFFSET 2 ROWS FETCH NEXT 5 ROWS ONLY", [])
    ∧ (mkSQLBuilder "mysql").select "t" (.strC "*") none none none (some 5) (some 2)
        none none none
      = .ok ("SELECT * FROM `t` LIMIT 5 OFFSET 2", []) :=
  ⟨rfl, by decide, by decide, by decide, rfl, rfl, rfl, rfl, rfl⟩

/-- C6: `upsert` handles the dialect name `postgres` but not the documented
canonical name `postgresql` (which the rest of the system passes), so upsert
on `postgresql` raises the unsupported-dialect `ValueError` instead of
emitting the claimed `ON CONFLICT` statement; sqlite, mysql, mssql and the
non-canonical `postgres` name behave as the claim describes. -/
theorem upsert_postgresql_unsupported_error :
    (mkSQLBuilder "postgresql").upsert "t" [("id", .intV 1), ("v", .strV "x")] ["id"]
      = .error (.valueError "Upsert not supported for dialect: postgresql")
    ∧ (mkSQLBuilder "sqlite").upsert "t" [("id", .intV 1), ("v", .strV "x")] ["id"]
      = .ok ("INSERT INTO \"t\" (\"id\", \"v\") VALUES (:id, :v) ON CONFLICT (\"id\") DO UPDATE SET \"v\"=excluded.\"v\"",
             .positional [.intV 1, .strV "x"])
    ∧ containsPat "ON CONFLICT (\"id\")".data
        ("INSERT INTO \"t\" (\"id\", \"v\") VALUES (:id, :v) ON CONFLICT (\"id\") DO UPDATE SET \"v\"=excluded.\"v\"").data
      = true
    ∧ (mkSQLBuilder "mysql").upsert "t" [("id", .intV 1), ("v", .strV "x")] ["id"]
      = .ok ("INSERT INTO `t` (`id`, `v`) VALUES (:id, :v) ON DUPLICATE KEY UPDATE `v`=VALUES(`v`)",
             .positional [.intV 1, .strV "x"])
    ∧ (mkSQLBuilder "mssql").upsert "t" [("id", .intV 1), ("v", .strV "x")] ["id"]
      = .ok ("MERGE INTO \"t\" T USING (VALUES (:id, :v)) S (\"id\", \"v\") ON (T.\"id\"=S.\"id\") WHEN MATCHED THEN UPDATE SET T.\"v\"=S.\"v\" WHEN NOT MATCHED THEN INSERT (\"id\", \"v\") VALUES (S.\"id\", S.\"v\")",
             .named [("id", .intV 1), ("v", .strV "x")]) :=
  ⟨rfl, rfl, by decide, rfl, rfl⟩

/-- C7: `cast_df` tests `s.max() > 1e12` before `s.max() > 1e15`, so the
microseconds branch is unreachable: a column of 16-digit epoch values (which
match the `epochtime` pattern) with maximum `2e15` is converted with unit
`ms`, while the spec's rule (`>1e15` → microseconds) picks `us`. -/
theorem epoch_unit_us_branch_unreachable :
    matchesEpochPat (pyIntStr (2 * 10 ^ 15)) = true
    ∧ chooseEpochUnit (2 * 10 ^ 15) = .ms
    ∧ specEpochUnit (2 * 10 ^ 15) = .us
    ∧ chooseEpochUnit (10 ^ 16) = .ms
    ∧ specEpochUnit (10 ^ 16) = .us
    ∧ chooseEpochUnit (5 * 10 ^ 13) = .ms
    ∧ specEpochUnit (5 * 10 ^ 13) = .ms
    ∧ chooseEpochUnit (10 ^ 9) = .s
    ∧ specEpochUnit (10 ^ 9) = .s := by
  decide

/-! ### C9-C10: the coercion engine recovers locally and filters to the schema -/

theorem lookup_mem_keys {β : Type} {a : String} {l : List (String × β)} {b : β}
    (h : List.lookup a l = some b) : a ∈ l.map Prod.fst := by
  induction l with
  | nil => simp [List.lookup] at h
  | cons x xs ih =>
    by_cases hx : a = x.1
    · simp [hx]
    · simp only [List.lookup, show (a == x.1) = false by simpa using hx] at h
      simp [ih h]

theorem fix_row_go (co : CoMap) (meta : List (String × String)) :
    ∀ (row acc : List (String × Value)),
      (∀ kv ∈ acc, kv.1 ∉ row.map Prod.fst) → (row.map Prod.fst).Nodup →
      row.foldl
        (fun acc kv =>
          match List.lookup kv.1 meta with
          | none => acc
          | some tstr => dictSet acc kv.1 (coerceCell co tstr kv.2))
        acc
      = acc ++ row.filterMap
          (fun kv => (List.lookup kv.1 meta).map (fun t => (kv.1, coerceCell co t kv.2))) := by
  intro row
  induction row with
  | nil => intro acc _ _; simp
  | cons kv row' ih =>
    intro acc hfresh hnd
    rw [List.foldl_cons, List.filterMap_cons]
    cases hl : List.lookup kv.1 meta with
    | none =>
      simp only [hl, Option.map_none]
      exact ih acc (fun kv' h' => fun hc => hfresh kv' h' (by simp [hc])) (by
        rw [List.map_cons, List.nodup_cons] at hnd
        exact hnd.2)
    | some t =>
      simp only [hl, Option.map_some]
      have hset : dictSet acc kv.1 (coerceCell co t kv.2)
          = acc ++ [(kv.1, coerceCell co t kv.2)] := by
        apply dictSet_fresh
        intro kv' h' hc
        exact hfresh kv' h' (by simp [hc])
      rw [hset, ih (acc ++ [(kv.1, coerceCell co t kv.2)]) ?_ ?_]
      · simp
      · intro kv' h'
        rcases List.mem_append.mp h' with h'' | h''
        · exact fun hc => hfresh kv' h'' (by simp [hc])
        · simp only [List.mem_singleton] at h''
          subst h''
          rw [List.map_cons, List.nodup_cons] at hnd
          simpa using hnd.1
      · rw [List.map_cons, List.nodup_cons] at hnd
        exact hnd.2

theorem fix_row_eq (co : CoMap) (meta : List (String × String))
    (row : List (String × Value)) (hnd : (row.map Prod.fst).Nodup) :
    fix_row co meta row
      = row.filterMap
          (fun kv => (List.lookup kv.1 meta).map (fun t => (kv.1, coerceCell co t kv.2))) := by
  have h := fix_row_go co meta row [] (by simp) hnd
  simpa [fix_row] using h

/-- C9: per-value and per-column coercion failures are recovered locally:
`fix_rows` keeps the full batch, replacing each failing value with null, and
`fix_df` keeps every column (a failing column is stringified, not dropped);
no coercion error propagates to the caller. -/
theorem coercion_errors_recovered_locally
    (co : CoMap) (meta : List (String × String)) (rows : List (List (String × Value)))
    (df : List (String × List Value)) :
    (fix_rows co meta rows).length = rows.length
    ∧ (∀ row, (row.map Prod.fst).Nodup →
        ∀ k v tstr f, List.lookup k meta = some tstr →
          co (baseType tstr) = some f → (k, v) ∈ row → v ≠ .noneV →
          (∀ w ws, f [v] tstr ≠ .ok (w :: ws)) →
          (k, Value.noneV) ∈ fix_row co meta row)
    ∧ (fix_df co meta df).map Prod.fst = df.map Prod.fst
    ∧ (∀ colName colVals tstr f e, (colName, colVals) ∈ df →
        List.lookup colName meta = some tstr →
        co (baseType tstr) = some f →
        f colVals tstr = .error e →
        (colName, colVals.map pyStr) ∈ fix_df co meta df) := by
  refine ⟨?_, ?_, ?_, ?_⟩
  · simp [fix_rows]
  · intro row hnd k v tstr f hm hc hkv hvn hfe
    rw [fix_row_eq co meta row hnd]
    apply List.mem_filterMap.mpr
    refine ⟨(k, v), hkv, ?_⟩
    have hcell : coerceCell co tstr v = .noneV := by
      unfold coerceCell
      rw [if_neg hvn, hc]
      show (match f [v] tstr with
            | .ok (w :: _) => w
            | .ok [] => Value.noneV
            | .error _ => Value.noneV) = Value.noneV
      cases hres : f [v] tstr with
      | ok l =>
        cases l with
        | nil => rfl
        | cons w ws => exact absurd hres (hfe w ws)
      | error e => rfl
    show (List.lookup k meta).map _ = _
    rw [hm]
    show some (k, coerceCell co tstr v) = some (k, Value.noneV)
    rw [hcell]
  · unfold fix_df
    rw [List.map_map]
    apply List.map_congr_left
    intro col _
    simp only [Function.comp_apply]
    cases hl : List.lookup col.1 meta with
    | none => simp [hl]
    | some tstr =>
      cases hco : co (baseType tstr) with
      | none => simp [hl, hco]
      | some f => simp [hl, hco]
  · intro colName colVals tstr f e hmem hl hc hfe
    unfold fix_df
    apply List.mem_map.mpr
    refine ⟨(colName, colVals), hmem, ?_⟩
    show (match List.lookup colName meta with
      | none => (colName, colVals)
      | some tstr =>
        match co (baseType tstr) with
        | some f =>
          (colName, match f colVals tstr with
                  | .ok newCol => newCol
                  | .error _ => colVals.map pyStr)
        | none => (colName, colVals.map pyStr)) = (colName, colVals.map pyStr)
    rw [hl]
    show (match co (baseType tstr) with
      | some f =>
        (colName, match f colVals tstr with
                | .ok newCol => newCol
                | .error _ => colVals.map pyStr)
      | none => (colName, colVals.map pyStr)) = (colName, colVals.map pyStr)
    rw [hc]
    show (colName, match f colVals tstr with
                | .ok newCol => newCol
                | .error _ => colVals.map pyStr) = (colName, colVals.map pyStr)
    rw [hfe]

/-- Witness for C9: a coercer that always fails yields a null binding for the
affected key while the row survives. -/
theorem coercion_errors_recovered_locally_witness :
    ("x", Value.noneV) ∈ fix_row
      (fun b => if b = "INT" then some (fun _ _ => .error ()) else none)
      [("x", "INT(11)")] [("x", Value.intV 5)] :=
  (coercion_errors_recovered_locally
      (fun b => if b = "INT" then some (fun _ _ => .error ()) else none)
      [("x", "INT(11)")] [[("x", Value.intV 5)]] []).2.1
    [("x", Value.intV 5)] (by decide) "x" (Value.intV 5) "INT(11)"
    (fun _ _ => .error ()) rfl rfl (by decide) (by decide)
    (fun w ws h => Except.noConfusion h)

/-- C10: every row that `fix_rows` returns only binds keys that are columns
of the cached schema; keys outside the schema are silently dropped. -/
theorem fix_rows_keys_subset_schema
    (co : CoMap) (meta : List (String × String)) (rows : List (List (String × Value))) :
    ∀ out ∈ fix_rows co meta rows, ∀ k ∈ out.map Prod.fst, k ∈ meta.map Prod.fst := by
  have hgo : ∀ (row acc : List (String × Value)),
      (∀ k ∈ acc.map Prod.fst, k ∈ meta.map Prod.fst) →
      ∀ k ∈ (row.foldl
        (fun acc kv =>
          match List.lookup kv.1 meta with
          | none => acc
          | some tstr => dictSet acc kv.1 (coerceCell co tstr kv.2))
        acc).map Prod.fst, k ∈ meta.map Prod.fst := by
    intro row
    induction row with
    | nil => intro acc hacc k hk; exact hacc k hk
    | cons kv row' ih =>
      intro acc hacc k hk
      rw [List.foldl_cons] at hk
      cases hl : List.lookup kv.1 meta with
      | none =>
        simp only [hl] at hk
        exact ih acc hacc k hk
      | some t =>
        simp only [hl] at hk
        refine ih (dictSet acc kv.1 (coerceCell co t kv.2)) ?_ k hk
        intro k' hk'
        rcases mem_fst_dictSet hk' with h' | h'
        · exact hacc k' h'
        · subst h'
          exact lookup_mem_keys hl
  intro out hout k hk
  rw [fix_rows, List.mem_map] at hout
  obtain ⟨row, _, hrow⟩ := hout
  subst hrow
  exact hgo row [] (by simp) k hk

/-- Witness for C10 at a concrete row with an off-schema key `y`. -/
theorem fix_rows_keys_subset_schema_witness :
    "x" ∈ ([("x", "INT")] : List (String × String)).map Prod.fst :=
  fix_rows_keys_subset_schema (fun _ => none) [("x", "INT")]
    [[("x", Value.intV 1), ("y", Value.intV 2)]]
    (fix_row (fun _ => none) [("x", "INT")] [("x", Value.intV 1), ("y", Value.intV 2)])
    (by decide) "x" (by decide)

end SqlUtils
